import Mathlib

/-!
Verification of the floor-plan extraction core (cubicasa.py) against its
natural-language specification.

The repository's core consumes an external 2D geometry/topology library
(polygon construction, boolean operations, distance, DE-9IM relate, `and` so
on).  Per the specification that library is an out-of-scope collaborator, so
it is modelled here as an abstract structure of operations `GeomOps` over an
abstract carrier of geometry values; every function of the repository is
translated faithfully as a Lean function parametrised by those operations.
Rational numbers stand for the numeric results (lengths, areas, distances) of
the library.  Concrete finite instantiations of `GeomOps` are used to
evaluate witnesses and counterexamples.
-/

namespace Cubicasa

/-- Dimension entry of a DE-9IM intersection matrix as returned by the
geometry library's `relate`: empty, or an intersection of dimension 0, 1
or 2. -/
inductive IMDim where
  | F : IMDim
  | D0 : IMDim
  | D1 : IMDim
  | D2 : IMDim
deriving DecidableEq, Repr

/-- One character of a DE-9IM pattern string: wildcard, T (nonempty),
F (empty), or an exact dimension. -/
inductive IMPat where
  | any : IMPat
  | t : IMPat
  | f : IMPat
  | dim : IMDim → IMPat
deriving DecidableEq, Repr

/-- A DE-9IM matrix: nine dimension entries, in the standard order
interior/interior, interior/boundary, interior/exterior, boundary/interior,
boundary/boundary, boundary/exterior, exterior/interior, exterior/boundary,
exterior/exterior. -/
structure IM9 where
  e0 : IMDim
  e1 : IMDim
  e2 : IMDim
  e3 : IMDim
  e4 : IMDim
  e5 : IMDim
  e6 : IMDim
  e7 : IMDim
  e8 : IMDim
deriving DecidableEq, Repr

/-- A nine-character DE-9IM pattern. -/
structure Pat9 where
  p0 : IMPat
  p1 : IMPat
  p2 : IMPat
  p3 : IMPat
  p4 : IMPat
  p5 : IMPat
  p6 : IMPat
  p7 : IMPat
  p8 : IMPat
deriving DecidableEq, Repr

/-- Whether one matrix entry satisfies one pattern character
(standard DE-9IM pattern semantics, as implemented by the geometry
library's relate test). -/
def entryMatches (m : IMDim) : IMPat → Bool
  | IMPat.any => true
  | IMPat.t => decide (m ≠ IMDim.F)
  | IMPat.f => decide (m = IMDim.F)
  | IMPat.dim d => decide (m = d)

/-- Whether a DE-9IM matrix satisfies a nine-character pattern.  The source
calls the library method relate with a pattern string; the method computes
the DE-9IM matrix of the two geometries and matches it against the pattern
with these standard semantics. -/
def relateMatches (m : IM9) (p : Pat9) : Bool :=
  entryMatches m.e0 p.p0 && entryMatches m.e1 p.p1 && entryMatches m.e2 p.p2 &&
  entryMatches m.e3 p.p3 && entryMatches m.e4 p.p4 && entryMatches m.e5 p.p5 &&
  entryMatches m.e6 p.p6 && entryMatches m.e7 p.p7 && entryMatches m.e8 p.p8

/-- The out-of-scope 2D geometry/topology library, as the interface the core
consumes (spec section 6).  `G` is the type of geometry values; points fed to
constructors are themselves geometry values (the source wraps raw coordinates
in Point objects before use, and Point accepts point-like input). -/
structure GeomOps (G : Type) where
  /-- Point() with no argument: the empty point geometry. -/
  emptyPoint : G
  /-- Point(p). -/
  mkPoint : G → G
  /-- LineString(points). -/
  mkLineString : List G → G
  /-- Polygon(points); a closed ring is implied. -/
  mkPolygon : List G → G
  /-- Polygon() with no argument: the empty polygon. -/
  emptyPolygon : G
  /-- Validity predicate on geometries (is_valid). -/
  isValid : G → Bool
  /-- polygon.exterior.coords: the closed boundary ring of a polygon,
  closing point included; empty list for an empty polygon. -/
  exteriorCoords : G → List G
  /-- Area of a geometry. -/
  area : G → ℚ
  /-- The library's structural equality used by the == and != operators. -/
  eqExact : G → G → Bool
  /-- The library's topological equality test (the equals method). -/
  equalsT : G → G → Bool
  /-- Boolean intersection of two geometries. -/
  intersection : G → G → G
  /-- Boolean difference of two geometries. -/
  difference : G → G → G
  /-- The split operation of the library; `none` models the operation
  raising, `some parts` the parts of the returned collection. -/
  splitLine : G → G → Option (List G)
  /-- MultiLineString constructor from a list of lines. -/
  mkMultiLineString : List G → G
  /-- Iteration over a geometry: `some parts` when the value is an iterable
  multi-part geometry, `none` when iterating raises TypeError. -/
  iterParts : G → Option (List G)
  /-- The member parts of a multi-part geometry (len and indexing). -/
  geoms : G → List G
  /-- isinstance(g, LineString). -/
  isLineString : G → Bool
  /-- isinstance(g, MultiLineString). -/
  isMultiLineString : G → Bool
  /-- isinstance(g, Polygon). -/
  isPolygon : G → Bool
  /-- isinstance(g, MultiPolygon). -/
  isMultiPolygon : G → Bool
  /-- is_empty predicate. -/
  isEmptyG : G → Bool
  /-- Planar-graph polygonization: all simple polygons induced by a
  segment soup. -/
  polygonize : List G → List G
  /-- Length of a line geometry. -/
  lengthG : G → ℚ
  /-- line.boundary indexed at 0: first endpoint of a line. -/
  boundary0 : G → G
  /-- line.boundary indexed at 1: second endpoint of a line. -/
  boundary1 : G → G
  /-- Minimum distance between two geometries. -/
  distance : G → G → ℚ
  /-- DE-9IM matrix of a pair of geometries; the source's relate calls
  are `relateMatches` applied to this matrix. -/
  relate : G → G → IM9
  /-- minimum_rotated_rectangle of a polygon. -/
  mrr : G → G

/-- CLOSE_EDGE_TOLERANCE = 1.0. -/
def CLOSE_EDGE_TOLERANCE : ℚ := 1

variable {G : Type}

/-- The four (edge, endpoint-of-the-other-edge) pairs built by
lines_are_close: (line1, line2.boundary[0]), (line1, line2.boundary[1]),
(line2, line1.boundary[0]), (line2, line1.boundary[1]). -/
def close_pairs (ops : GeomOps G) (line1 line2 : G) : List (G × G) :=
  [(line1, ops.boundary0 line2), (line1, ops.boundary1 line2),
   (line2, ops.boundary0 line1), (line2, ops.boundary1 line1)]

/-- The scanning loop of lines_are_close: walks the pair list carrying the
first_pair_found flag; returns true as soon as a second qualifying pair is
seen, false when the list is exhausted. -/
def lines_are_close_go (ops : GeomOps G) (tolerance : ℚ) :
    List (G × G) → Bool → Bool
  | [], _ => false
  | ep :: rest, first_pair_found =>
    if ops.distance ep.1 ep.2 < tolerance then
      if first_pair_found then true
      else lines_are_close_go ops tolerance rest true
    else lines_are_close_go ops tolerance rest first_pair_found

/-- lines_are_close(line1, line2, tolerance): when both lines have positive
length, scan the four (edge, opposite endpoint) pairs and return true once
two of the distance checks fall below tolerance; otherwise false. -/
def lines_are_close (ops : GeomOps G) (line1 line2 : G) (tolerance : ℚ) : Bool :=
  if 0 < ops.lengthG line1 ∧ 0 < ops.lengthG line2 then
    lines_are_close_go ops tolerance (close_pairs ops line1 line2) false
  else
    false

lemma lines_are_close_go_iff (ops : GeomOps G) (tolerance : ℚ) :
    ∀ (l : List (G × G)) (found : Bool),
      lines_are_close_go ops tolerance l found = true ↔
        2 ≤ l.countP (fun ep => decide (ops.distance ep.1 ep.2 < tolerance)) +
              (if found then 1 else 0) := by
  intro l
  induction l with
  | nil =>
    intro found
    have h0 : lines_are_close_go ops tolerance [] found = false := rfl
    rw [h0, List.countP_nil]
    cases found <;> simp
  | cons ep rest ih =>
    intro found
    rw [List.countP_cons]
    by_cases hd : ops.distance ep.1 ep.2 < tolerance
    · have hdec : (decide (ops.distance ep.1 ep.2 < tolerance)) = true := decide_eq_true hd
      cases found with
      | false =>
        rw [show lines_are_close_go ops tolerance (ep :: rest) false
              = lines_are_close_go ops tolerance rest true from by
            simp [lines_are_close_go, hd]]
        rw [ih true]
        simp [hdec]
      | true =>
        have ht : lines_are_close_go ops tolerance (ep :: rest) true = true := by
          simp [lines_are_close_go, hd]
        rw [ht]
        simp [hdec]
    · have hdec : (decide (ops.distance ep.1 ep.2 < tolerance)) = false := by
        simp [hd]
      rw [show lines_are_close_go ops tolerance (ep :: rest) found
            = lines_are_close_go ops tolerance rest found from by
          simp [lines_are_close_go, hd]]
      rw [ih found]
      simp [hdec]

/-- Claim C4: for two positive-length edges, lines_are_close with the fixed
tolerance 1.0 returns true if and only if at least two of the four
(edge, endpoint-of-the-other-edge) distance checks fall below the tolerance;
in particular a single qualifying check never yields closeness. -/
theorem lines_are_close_iff_two_checks (ops : GeomOps G) (line1 line2 : G)
    (h1 : 0 < ops.lengthG line1) (h2 : 0 < ops.lengthG line2) :
    lines_are_close ops line1 line2 CLOSE_EDGE_TOLERANCE = true ↔
      2 ≤ (close_pairs ops line1 line2).countP
            (fun ep => decide (ops.distance ep.1 ep.2 < CLOSE_EDGE_TOLERANCE)) := by
  unfold lines_are_close
  rw [if_pos ⟨h1, h2⟩, lines_are_close_go_iff]
  simp

/-- A trivial instantiation of the geometry library over a carrier;
concrete witnesses override the operations they exercise. -/
def defaultOps (G : Type) (d : G) : GeomOps G where
  emptyPoint := d
  mkPoint := fun _ => d
  mkLineString := fun _ => d
  mkPolygon := fun _ => d
  emptyPolygon := d
  isValid := fun _ => true
  exteriorCoords := fun _ => []
  area := fun _ => 0
  eqExact := fun _ _ => false
  equalsT := fun _ _ => false
  intersection := fun _ _ => d
  difference := fun _ _ => d
  splitLine := fun _ _ => none
  mkMultiLineString := fun _ => d
  iterParts := fun _ => none
  geoms := fun _ => []
  isLineString := fun _ => false
  isMultiLineString := fun _ => false
  isPolygon := fun _ => false
  isMultiPolygon := fun _ => false
  isEmptyG := fun _ => false
  polygonize := fun _ => []
  lengthG := fun _ => 0
  boundary0 := fun _ => d
  boundary1 := fun _ => d
  distance := fun _ _ => 0
  relate := fun _ _ => ⟨IMDim.F, IMDim.F, IMDim.F, IMDim.F, IMDim.F, IMDim.F, IMDim.F, IMDim.F, IMDim.F⟩
  mrr := fun _ => d

/-- Concrete geometry table for the C4 witness: two unit-length edges 0 and 2
whose endpoint geometries are x+10 and x+20; exactly two of the four
endpoint-to-edge distances are below tolerance. -/
def c4ops : GeomOps ℕ :=
  { defaultOps ℕ 0 with
    lengthG := fun _ => 1
    boundary0 := fun x => x + 10
    boundary1 := fun x => x + 20
    distance := fun e p =>
      if e = 0 ∧ p = 12 then 0
      else if e = 0 ∧ p = 22 then 0
      else 5 }

/-- Witness for C4: at the concrete instance, both positive-length
hypotheses hold, two of the four checks are below tolerance and
lines_are_close returns true. -/
theorem lines_are_close_iff_two_checks_witness :
    lines_are_close c4ops 0 2 CLOSE_EDGE_TOLERANCE = true :=
  (lines_are_close_iff_two_checks c4ops 0 2 (by decide) (by decide)).mpr (by decide)

/-- polygon_edges(polygon): pair consecutive points of the closed exterior
ring (coords without the last point zipped against coords without the first)
and build a LineString from each pair. -/
def polygon_edges (ops : GeomOps G) (polygon : G) : List G :=
  let cs := ops.exteriorCoords polygon
  (cs.zip cs.tail).map (fun pq => ops.mkLineString [pq.1, pq.2])

/-- largest_polygon(polygons): start from the first element and replace the
running best only on a strictly greater area, so the first element of
maximal area wins ties.  The source indexes polygons[0] and is only called
with a non-empty list; the empty case here returns the empty polygon and is
never reached from polygon_from_points. -/
def largest_polygon (ops : GeomOps G) : List G → G
  | [] => ops.emptyPolygon
  | p :: ps =>
    ps.foldl (fun largest q => if ops.area largest < ops.area q then q else largest) p

/-- extend_or_append(list, iterable_or_not): try list.extend, and fall back
to list.append when iterating the argument raises. -/
def extend_or_append (ops : GeomOps G) (l : List G) (x : G) : List G :=
  match ops.iterParts x with
  | some parts => l ++ parts
  | none => l ++ [x]

/-- The body of the split_at_intersections loop for one edge: split the edge
at the other edges; when split raises, accumulate edge.intersection(others)
and edge.difference(others) and keep the non-empty LineString results. -/
def split_one_edge (ops : GeomOps G) (edges : List G) (this_edge : G) : List G :=
  let other_edges := ops.mkMultiLineString (edges.filter (fun e => !(ops.eqExact e this_edge)))
  match ops.splitLine this_edge other_edges with
  | some result => result
  | none =>
    let segments :=
      extend_or_append ops
        (extend_or_append ops [] (ops.intersection this_edge other_edges))
        (ops.difference this_edge other_edges)
    segments.filter (fun s => ops.isLineString s && !(ops.isEmptyG s))

/-- split_at_intersections(edges): concatenate the per-edge split results in
edge order. -/
def split_at_intersections (ops : GeomOps G) (edges : List G) : List G :=
  edges.foldl (fun split_edges e => split_edges ++ split_one_edge ops edges e) []

/-- remove_duplicates(geometry_list): keep each element whose topological
equal has not been kept already, preserving first occurrences in order. -/
def remove_duplicates (ops : GeomOps G) (geometry_list : List G) : List G :=
  geometry_list.foldl
    (fun deduplicated this =>
      if deduplicated.any (fun that => ops.equalsT this that) then deduplicated
      else deduplicated ++ [this]) []

/-- polygon_from_points(points): 0 points gives the empty point, 1 a point,
2 a line; for 3 or more points the direct polygon when valid, otherwise the
split/deduplicate/polygonize repair, returning the largest recovered polygon
or the empty polygon when none is recovered. -/
def polygon_from_points (ops : GeomOps G) (points : List G) : G :=
  match points with
  | [] => ops.emptyPoint
  | [p] => ops.mkPoint p
  | [p, q] => ops.mkLineString [p, q]
  | _ =>
    let polygon := ops.mkPolygon points
    if ops.isValid polygon then polygon
    else
      let raw_edges := polygon_edges ops polygon
      let split_edges := split_at_intersections ops raw_edges
      let deduplicated_edges := remove_duplicates ops split_edges
      let polygons := ops.polygonize deduplicated_edges
      if 0 < polygons.length then largest_polygon ops polygons
      else ops.emptyPolygon

/-- The polygon candidates produced by the repair pipeline of
polygon_from_points for a given point list. -/
def repair_polygons (ops : GeomOps G) (points : List G) : List G :=
  ops.polygonize (remove_duplicates ops
    (split_at_intersections ops (polygon_edges ops (ops.mkPolygon points))))

/-- x is an element of l of maximal area such that every element before its
occurrence has strictly smaller area: the greatest-area element with first
encountered winning ties. -/
def IsFirstLargest (ops : GeomOps G) (l : List G) (x : G) : Prop :=
  ∃ l1 l2, l = l1 ++ x :: l2
    ∧ (∀ y ∈ l1, ops.area y < ops.area x)
    ∧ (∀ y ∈ l2, ops.area y ≤ ops.area x)

lemma largest_polygon_cons (ops : GeomOps G) (p q : G) (rest : List G) :
    largest_polygon ops (p :: q :: rest)
      = largest_polygon ops ((if ops.area p < ops.area q then q else p) :: rest) := rfl

lemma largest_polygon_first (ops : GeomOps G) :
    ∀ (ps : List G) (p : G), IsFirstLargest ops (p :: ps) (largest_polygon ops (p :: ps)) := by
  intro ps
  induction ps with
  | nil =>
    intro p
    exact ⟨[], [], rfl, by simp, by simp⟩
  | cons q rest ih =>
    intro p
    rw [largest_polygon_cons]
    by_cases hpq : ops.area p < ops.area q
    · rw [if_pos hpq] at *
      obtain ⟨l1, l2, heq, h1, h2⟩ := ih q
      refine ⟨p :: l1, l2, ?_, ?_, h2⟩
      · simp only [List.cons_append]
        exact congrArg (List.cons p) heq
      · intro y hy
        have hqx : ops.area q < ops.area (largest_polygon ops (q :: rest))
            ∨ q = largest_polygon ops (q :: rest) := by
          cases l1 with
          | nil =>
            right
            have := heq
            simp at this
            exact this.1
          | cons a t =>
            left
            have ha : a = q := by
              have := heq
              simp at this
              exact this.1.symm
            have := h1 a (by simp)
            rw [ha] at this
            exact this
        rcases List.mem_cons.mp hy with hyp | hyl
        · subst hyp
          rcases hqx with hlt | heqq
          · exact lt_trans hpq hlt
          · rw [← heqq]; exact hpq
        · exact h1 y hyl
    · rw [if_neg hpq] at *
      obtain ⟨l1, l2, heq, h1, h2⟩ := ih p
      have hqp : ops.area q ≤ ops.area p := le_of_not_lt hpq
      cases l1 with
      | nil =>
        have hx : p = largest_polygon ops (p :: rest) ∧ rest = l2 := by
          have h := heq
          simp at h
          exact h
        refine ⟨[], q :: l2, ?_, by simp, ?_⟩
        · conv_lhs => rw [hx.2]
          rw [← hx.1]
          rfl
        · intro y hy
          rcases List.mem_cons.mp hy with hyq | hyl
          · subst hyq
            rw [← hx.1]
            exact hqp
          · exact h2 y hyl
      | cons a t =>
        have hsplit : p = a ∧ rest = t ++ largest_polygon ops (p :: rest) :: l2 := by
          have h := heq
          simp at h
          exact h
        have hpx : ops.area p < ops.area (largest_polygon ops (p :: rest)) := by
          have := h1 a (by simp)
          rw [← hsplit.1] at this
          exact this
        refine ⟨p :: q :: t, l2, ?_, ?_, h2⟩
        · conv_lhs => rw [hsplit.2]
          simp [List.cons_append]
        · intro y hy
          rcases List.mem_cons.mp hy with hyp | hy'
          · subst hyp; exact hpx
          · rcases List.mem_cons.mp hy' with hyq | hyt
            · subst hyq; exact lt_of_le_of_lt hqp hpx
            · have : y ∈ a :: t := by simp [hyt]
              have := h1 y this
              exact this

/-- Claim C3: polygon_from_points returns some geometry for every finite
point list, by the spec case split: empty point for 0 points, point for 1,
line for 2, the direct polygon when valid for 3 or more, and for an invalid
ring the greatest-area repaired polygon (first encountered wins ties) or the
empty polygon when the repair recovers nothing. -/
theorem polygon_from_points_cases (ops : GeomOps G) (points : List G) :
    (points = [] → polygon_from_points ops points = ops.emptyPoint)
    ∧ (∀ p, points = [p] → polygon_from_points ops points = ops.mkPoint p)
    ∧ (∀ p q, points = [p, q] → polygon_from_points ops points = ops.mkLineString [p, q])
    ∧ (3 ≤ points.length →
        (ops.isValid (ops.mkPolygon points) = true →
          polygon_from_points ops points = ops.mkPolygon points)
        ∧ (ops.isValid (ops.mkPolygon points) = false →
            (repair_polygons ops points = [] →
              polygon_from_points ops points = ops.emptyPolygon)
            ∧ (repair_polygons ops points ≠ [] →
                IsFirstLargest ops (repair_polygons ops points)
                  (polygon_from_points ops points)))) := by
  refine ⟨?_, ?_, ?_, ?_⟩
  · rintro rfl; rfl
  · rintro p rfl; rfl
  · rintro p q rfl; rfl
  · intro hlen
    match points, hlen with
    | a :: b :: c :: rest, _ =>
      constructor
      · intro hvalid
        simp [polygon_from_points, hvalid]
      · intro hinvalid
        constructor
        · intro hrep
          simp [polygon_from_points, hinvalid, repair_polygons] at *
          simp [hrep]
        · intro hrep
          have hne : repair_polygons ops (a :: b :: c :: rest) ≠ [] := hrep
          match hpoly : repair_polygons ops (a :: b :: c :: rest), hne with
          | p :: ps, _ =>
            have hres : polygon_from_points ops (a :: b :: c :: rest)
                = largest_polygon ops (p :: ps) := by
              simp only [polygon_from_points, hinvalid, Bool.false_eq_true, if_false]
              have : ops.polygonize (remove_duplicates ops (split_at_intersections ops
                  (polygon_edges ops (ops.mkPolygon (a :: b :: c :: rest))))) = p :: ps := by
                rw [show ops.polygonize (remove_duplicates ops (split_at_intersections ops
                    (polygon_edges ops (ops.mkPolygon (a :: b :: c :: rest)))))
                  = repair_polygons ops (a :: b :: c :: rest) from rfl, hpoly]
              rw [this]
              simp
            rw [hres]
            exact largest_polygon_first ops ps p

/-- Witness for C3: at the trivial instance the three-point list hits the
valid-polygon case and returns the directly constructed polygon. -/
theorem polygon_from_points_cases_witness :
    polygon_from_points (defaultOps ℕ 0) [1, 2, 3] = (defaultOps ℕ 0).mkPolygon [1, 2, 3] :=
  ((polygon_from_points_cases (defaultOps ℕ 0) [1, 2, 3]).2.2.2 (by decide)).1 (by decide)

/-- Concrete geometry table realising a degenerate collinear three-point
ring: the direct polygon (value 10) is invalid, its ring splits into three
collinear segments, polygonization recovers nothing, and the reconstruction
returns the empty polygon (value 99) whose boundary ring is empty — matching
the library's behaviour on collinear input such as (0,0), (1,0), (2,0). -/
def c10ops : GeomOps ℕ :=
  { defaultOps ℕ 0 with
    emptyPoint := 98
    emptyPolygon := 99
    mkPolygon := fun l => if l = [1, 2, 3] then 10 else 0
    isValid := fun g => !(decide (g = 10))
    exteriorCoords := fun g => if g = 10 then [1, 2, 3, 1] else []
    mkLineString := fun l =>
      if l = [1, 2] then 20 else if l = [2, 3] then 21 else if l = [3, 1] then 22 else 0
    eqExact := fun a b => decide (a = b)
    equalsT := fun a b => decide (a = b)
    splitLine := fun e _ => some [e]
    polygonize := fun _ => []
    isPolygon := fun g => decide (g = 99) }

/-- Counterexample for C10 as stated: this reconstruction succeeds in the
claim's sense (it returns a polygon — the empty polygon), but running the
reconstruction again on that polygon's boundary ring yields the empty point
geometry, which is not a polygon at all, hence not a polygon equal to the
first output. -/
theorem polygon_from_points_not_idempotent :
    c10ops.isPolygon (polygon_from_points c10ops [1, 2, 3]) = true
    ∧ polygon_from_points c10ops [1, 2, 3] = c10ops.emptyPolygon
    ∧ polygon_from_points c10ops
        (c10ops.exteriorCoords (polygon_from_points c10ops [1, 2, 3])) = c10ops.emptyPoint
    ∧ c10ops.isPolygon (polygon_from_points c10ops
        (c10ops.exteriorCoords (polygon_from_points c10ops [1, 2, 3]))) = false := by
  decide

/-- Claim C10 amended: for every point list whose reconstruction returns a
nonempty polygon, rerunning the reconstruction on that polygon's boundary
ring returns the polygon directly rebuilt from that ring, which is equal to
the first output — provided the library rebuilds the ring of the nonempty
output into a valid polygon topologically equal to it (which holds for the
valid polygons the library produces). -/
theorem polygon_from_points_idempotent_nonempty (ops : GeomOps G) (points : List G)
    (hpoly : ops.isPolygon (polygon_from_points ops points) = true)
    (hne : ops.isEmptyG (polygon_from_points ops points) = false)
    (hlen : 3 ≤ (ops.exteriorCoords (polygon_from_points ops points)).length)
    (hvalid : ops.isValid
        (ops.mkPolygon (ops.exteriorCoords (polygon_from_points ops points))) = true)
    (heqv : ops.equalsT
        (ops.mkPolygon (ops.exteriorCoords (polygon_from_points ops points)))
        (polygon_from_points ops points) = true) :
    polygon_from_points ops (ops.exteriorCoords (polygon_from_points ops points))
      = ops.mkPolygon (ops.exteriorCoords (polygon_from_points ops points))
    ∧ ops.equalsT
        (polygon_from_points ops (ops.exteriorCoords (polygon_from_points ops points)))
        (polygon_from_points ops points) = true := by
  obtain ⟨a, b, c, rest, hring⟩ :
      ∃ a b c rest, ops.exteriorCoords (polygon_from_points ops points)
        = a :: b :: c :: rest := by
    match hr : ops.exteriorCoords (polygon_from_points ops points), hlen with
    | a :: b :: c :: rest, _ => exact ⟨a, b, c, rest, rfl⟩
  rw [hring] at hvalid heqv ⊢
  have hdir : polygon_from_points ops (a :: b :: c :: rest)
      = ops.mkPolygon (a :: b :: c :: rest) := by
    simp [polygon_from_points, hvalid]
  refine ⟨hdir, ?_⟩
  rw [hdir]
  exact heqv

/-- Concrete geometry table for the C10 witness: a valid four-point square
(value 50) whose ring rebuilds into an equal valid polygon (value 51). -/
def c10wops : GeomOps ℕ :=
  { defaultOps ℕ 0 with
    mkPolygon := fun l =>
      if l = [1, 2, 3, 4] then 50 else if l = [1, 2, 3, 4, 1] then 51 else 0
    exteriorCoords := fun g => if g = 50 then [1, 2, 3, 4, 1] else []
    equalsT := fun a b => decide (a = 51 ∧ b = 50) || decide (a = b)
    isPolygon := fun g => decide (g = 50)
    isEmptyG := fun _ => false }

/-- Witness for the amended C10 at the square instance: reconstruction of
the output ring is equal to the original output. -/
theorem polygon_from_points_idempotent_nonempty_witness :
    c10wops.equalsT
      (polygon_from_points c10wops
        (c10wops.exteriorCoords (polygon_from_points c10wops [1, 2, 3, 4])))
      (polygon_from_points c10wops [1, 2, 3, 4]) = true :=
  (polygon_from_points_idempotent_nonempty c10wops [1, 2, 3, 4]
    (by decide) (by decide) (by decide) (by decide) (by decide)).2

/-- Polygon state of a floor's walls during overlap resolution: `orig i` is
the polygon the cached base property computes for wall i, `slot i` the
wall's stored polygon cell, none when unset or nulled out.  A read of the
wall polygon property returns the slot content when set and the originally
computed polygon otherwise; the slot-filling side effect of a read never
changes the observed value (it is modelled in full for claim C7). -/
structure WallsState (G : Type) where
  orig : ℕ → G
  slot : ℕ → Option G

/-- The polygon observed for wall i by the Wall polygon property. -/
def polyOf (st : WallsState G) (i : ℕ) : G := (st.slot i).getD (st.orig i)

/-- Assignment to a wall's stored polygon cell. -/
def setSlot (st : WallsState G) (i : ℕ) (v : Option G) : WallsState G :=
  { st with slot := fun k => if k = i then v else st.slot k }

/-- The proper-overlap DE-9IM relate test 2121T1212 used by
Wall.remove_overlaps. -/
def patOverlap : Pat9 :=
  ⟨IMPat.dim IMDim.D2, IMPat.dim IMDim.D1, IMPat.dim IMDim.D2, IMPat.dim IMDim.D1,
   IMPat.t, IMPat.dim IMDim.D1, IMPat.dim IMDim.D2, IMPat.dim IMDim.D1, IMPat.dim IMDim.D2⟩

/-- minimum_rotated_rectangle_dimension(polygon): the shorter side of the
minimum rotated bounding rectangle, from the first three ring coordinates.
The final catch-all arm is unreachable for the rectangles the library
returns (their rings always hold at least three coordinates). -/
def minimum_rotated_rectangle_dimension (ops : GeomOps G) (polygon : G) : ℚ :=
  let rect := ops.mrr polygon
  match ops.exteriorCoords rect with
  | c0 :: c1 :: c2 :: _ =>
    let d1 := ops.distance (ops.mkPoint c0) (ops.mkPoint c1)
    let d2 := ops.distance (ops.mkPoint c1) (ops.mkPoint c2)
    min d1 d2
  | _ => 0

/-- subtract_cleanly(this, that, tolerance): the difference when it is a
single polygon; when it is a multipolygon of exactly two parts of which the
smaller one is a sliver (short rectangle side below tolerance), the larger
part (the part other than the first of minimal size); otherwise nothing. -/
def subtract_cleanly (ops : GeomOps G) (this_polygon that_polygon : G)
    (tolerance : ℚ) : Option G :=
  let difference := ops.difference this_polygon that_polygon
  if ops.isPolygon difference then some difference
  else if ops.isMultiPolygon difference then
    match ops.geoms difference with
    | [p0, p1] =>
      let s0 := minimum_rotated_rectangle_dimension ops p0
      let s1 := minimum_rotated_rectangle_dimension ops p1
      if min s0 s1 < tolerance then
        if s0 ≤ s1 then some p1 else some p0
      else none
    | _ => none
  else none

/-- Wall.remove_overlaps(self = wall i, other_wall = wall j): when the two
polygons satisfy the proper-overlap relate test, try the clean difference of
i minus j, then of j minus i, storing the result into the respective wall's
polygon cell; when neither direction is clean, report a pending pair under
clean_overlaps_only, and otherwise force-store the (absent) second
difference result, nulling wall j's cell.  The Bool result mirrors the
Python return value True/False, none the implicit None. -/
def remove_overlaps (ops : GeomOps G) (st : WallsState G) (i j : ℕ)
    (clean_overlaps_only : Bool) : WallsState G × Option Bool :=
  if relateMatches (ops.relate (polyOf st i) (polyOf st j)) patOverlap then
    match subtract_cleanly ops (polyOf st i) (polyOf st j) CLOSE_EDGE_TOLERANCE with
    | some d => (setSlot st i (some d), some true)
    | none =>
      match subtract_cleanly ops (polyOf st j) (polyOf st i) CLOSE_EDGE_TOLERANCE with
      | some d => (setSlot st j (some d), some true)
      | none =>
        if clean_overlaps_only then (st, some false)
        else (setSlot st j none, some true)
  else (st, none)

/-- One round of Floor.remove_wall_overlaps: run remove_overlaps over every
pair in order, collecting the pairs whose result compares equal to False
(the pairs to retry) in iteration order. -/
def processPairs (ops : GeomOps G) :
    List (ℕ × ℕ) → WallsState G → WallsState G × List (ℕ × ℕ)
  | [], st => (st, [])
  | pr :: rest, st =>
    let step := remove_overlaps ops st pr.1 pr.2 true
    let tail := processPairs ops rest step.1
    if step.2 = some false then (tail.1, pr :: tail.2) else tail

/-- The forced-resolution sweep at the end of Floor.remove_wall_overlaps:
remove_overlaps with clean_overlaps_only disabled over the stagnated pairs. -/
def forcePairs (ops : GeomOps G) : List (ℕ × ℕ) → WallsState G → WallsState G
  | [], st => st
  | pr :: rest, st => forcePairs ops rest (remove_overlaps ops st pr.1 pr.2 false).1

/-- The retry loop of Floor.remove_wall_overlaps, with explicit fuel: stop
with the final state and an empty pending list when no pair is pending, stop
with the stagnated pending list when the round made no progress, and
otherwise run another round over the pending pairs. -/
def loopRounds (ops : GeomOps G) :
    ℕ → List (ℕ × ℕ) → WallsState G → Option (WallsState G × List (ℕ × ℕ))
  | 0, _, _ => none
  | fuel + 1, pairs, st =>
    let round := processPairs ops pairs st
    if round.2.length = 0 then some round
    else if round.2.length = pairs.length then some round
    else loopRounds ops fuel round.2 round.1

/-- Floor.remove_wall_overlaps over a given pair list (the caller passes all
unordered wall pairs): run retry rounds, then forcibly resolve whatever
pending pairs remain.  Fuel one more than the pair count suffices; the
fallback arm for exhausted fuel is proved unreachable. -/
def remove_wall_overlaps (ops : GeomOps G) (pairs : List (ℕ × ℕ))
    (st : WallsState G) : WallsState G :=
  match loopRounds ops (pairs.length + 1) pairs st with
  | some out => forcePairs ops out.2 out.1
  | none => st

lemma processPairs_sublen (ops : GeomOps G) :
    ∀ (pairs : List (ℕ × ℕ)) (st : WallsState G),
      ((processPairs ops pairs st).2).length ≤ pairs.length := by
  intro pairs
  induction pairs with
  | nil => intro st; simp [processPairs]
  | cons pr rest ih =>
    intro st
    simp only [processPairs]
    by_cases hc : (remove_overlaps ops st pr.1 pr.2 true).2 = some false
    · simp only [hc, if_pos rfl]
      have := ih (remove_overlaps ops st pr.1 pr.2 true).1
      simp
      omega
    · simp only [if_neg hc]
      have := ih (remove_overlaps ops st pr.1 pr.2 true).1
      simp
      omega

lemma loopRounds_isSome (ops : GeomOps G) :
    ∀ (fuel : ℕ) (pairs : List (ℕ × ℕ)) (st : WallsState G),
      pairs.length < fuel → (loopRounds ops fuel pairs st).isSome = true := by
  intro fuel
  induction fuel with
  | zero => intro pairs st h; omega
  | succ f ih =>
    intro pairs st h
    simp only [loopRounds]
    by_cases h0 : (processPairs ops pairs st).2.length = 0
    · simp [h0]
    · by_cases hsame : (processPairs ops pairs st).2.length = pairs.length
      · simp [h0, hsame]
      · simp only [h0, hsame, if_neg]
        have hle := processPairs_sublen ops pairs st
        exact ih (processPairs ops pairs st).2 (processPairs ops pairs st).1 (by omega)

lemma loopRounds_fuel_irrelevant (ops : GeomOps G) :
    ∀ (f1 f2 : ℕ) (pairs : List (ℕ × ℕ)) (st : WallsState G),
      pairs.length < f1 → pairs.length < f2 →
      loopRounds ops f1 pairs st = loopRounds ops f2 pairs st := by
  intro f1
  induction f1 with
  | zero => intro f2 pairs st h1 h2; omega
  | succ f ih =>
    intro f2 pairs st h1 h2
    match f2, h2 with
    | f2' + 1, _ =>
      simp only [loopRounds]
      by_cases h0 : (processPairs ops pairs st).2.length = 0
      · simp [h0]
      · by_cases hsame : (processPairs ops pairs st).2.length = pairs.length
        · simp [h0, hsame]
        · simp only [h0, hsame, if_neg]
          have hle := processPairs_sublen ops pairs st
          exact ih f2' (processPairs ops pairs st).2 (processPairs ops pairs st).1
            (by omega) (by omega)

/-- Claim C1: Floor.remove_wall_overlaps terminates after finitely many
rounds on every finite pair list: the loop with fuel one more than the
initial pair count already reaches its answer (and any larger fuel computes
the same answer), every productive round strictly shrinks the pending pair
list, and the procedure ends by forcibly resolving (clean_overlaps_only
disabled) exactly the pending pairs of the stagnated round. -/
theorem remove_wall_overlaps_terminates (ops : GeomOps G) (pairs : List (ℕ × ℕ))
    (st : WallsState G) :
    (∃ st' retry, loopRounds ops (pairs.length + 1) pairs st = some (st', retry)
        ∧ remove_wall_overlaps ops pairs st = forcePairs ops retry st')
    ∧ (∀ fuel, pairs.length < fuel →
        loopRounds ops fuel pairs st = loopRounds ops (pairs.length + 1) pairs st)
    ∧ (∀ (qs : List (ℕ × ℕ)) (st2 : WallsState G),
        (processPairs ops qs st2).2 ≠ [] →
        (processPairs ops qs st2).2.length ≠ qs.length →
        (processPairs ops qs st2).2.length < qs.length) := by
  refine ⟨?_, ?_, ?_⟩
  · have h := loopRounds_isSome ops (pairs.length + 1) pairs st (by omega)
    cases hout : loopRounds ops (pairs.length + 1) pairs st with
    | some out => exact ⟨out.1, out.2, by simp [hout], by simp [remove_wall_overlaps, hout]⟩
    | none => rw [hout] at h; simp at h
  · intro fuel hf
    exact loopRounds_fuel_irrelevant ops fuel (pairs.length + 1) pairs st hf (by omega)
  · intro qs st2 hne hlen
    have hle := processPairs_sublen ops qs st2
    omega

/-- An all-empty DE-9IM matrix. -/
def mF : IM9 :=
  ⟨IMDim.F, IMDim.F, IMDim.F, IMDim.F, IMDim.F, IMDim.F, IMDim.F, IMDim.F, IMDim.F⟩

/-- A DE-9IM matrix satisfying the proper-overlap test 2121T1212. -/
def mOverlap : IM9 :=
  ⟨IMDim.D2, IMDim.D1, IMDim.D2, IMDim.D1, IMDim.D1, IMDim.D1, IMDim.D2, IMDim.D1, IMDim.D2⟩

/-- Concrete geometry table for the C1 witness: walls 0 and 1 (polygons 10
and 11) properly overlap but neither difference is clean, so their pair
pends; walls 0 and 2 do not overlap. -/
def c1ops : GeomOps ℕ :=
  { defaultOps ℕ 0 with
    relate := fun a b => if a = 10 ∧ b = 11 then mOverlap else mF }

/-- Wall polygon state for the C1 witness. -/
def c1st : WallsState ℕ := ⟨fun i => 10 + i, fun _ => none⟩

/-- Witness for C1: at the concrete two-pair instance the loop's answer is
independent of extra fuel and the productive round strictly shrank the
pending list. -/
theorem remove_wall_overlaps_terminates_witness :
    loopRounds c1ops 7 [(0, 1), (0, 2)] c1st = loopRounds c1ops 3 [(0, 1), (0, 2)] c1st
    ∧ (processPairs c1ops [(0, 1), (0, 2)] c1st).2.length < 2 := by
  have h := remove_wall_overlaps_terminates c1ops [(0, 1), (0, 2)] c1st
  exact ⟨h.2.1 7 (by decide), h.2.2 [(0, 1), (0, 2)] c1st (by decide) (by decide)⟩

/-- Claim C9: when the polygons of walls i and j satisfy the proper-overlap
relate test and the difference of i minus j is a single polygon,
remove_overlaps succeeds, wall i's polygon becomes that difference, and the
polygon of every other wall — j's in particular — is unchanged. -/
theorem remove_overlaps_clean_difference (ops : GeomOps G) (st : WallsState G)
    (i j : ℕ) (b : Bool)
    (hrel : relateMatches (ops.relate (polyOf st i) (polyOf st j)) patOverlap = true)
    (hdiff : ops.isPolygon (ops.difference (polyOf st i) (polyOf st j)) = true) :
    (remove_overlaps ops st i j b).2 = some true
    ∧ polyOf (remove_overlaps ops st i j b).1 i
        = ops.difference (polyOf st i) (polyOf st j)
    ∧ ∀ k, k ≠ i → polyOf (remove_overlaps ops st i j b).1 k = polyOf st k := by
  have hsub : subtract_cleanly ops (polyOf st i) (polyOf st j) CLOSE_EDGE_TOLERANCE
      = some (ops.difference (polyOf st i) (polyOf st j)) := by
    simp [subtract_cleanly, hdiff]
  have hro : remove_overlaps ops st i j b
      = (setSlot st i (some (ops.difference (polyOf st i) (polyOf st j))), some true) := by
    unfold remove_overlaps
    rw [if_pos hrel, hsub]
  refine ⟨?_, ?_, ?_⟩
  · rw [hro]
  · rw [hro]
    simp [polyOf, setSlot]
  · intro k hk
    rw [hro]
    simp [polyOf, setSlot, hk]

/-- Concrete geometry table for the C9 witness: wall polygons 100 and 101
properly overlap and the difference 100 minus 101 is the single polygon
200. -/
def c9ops : GeomOps ℕ :=
  { defaultOps ℕ 0 with
    relate := fun a b => if a = 100 ∧ b = 101 then mOverlap else mF
    difference := fun a b => if a = 100 ∧ b = 101 then 200 else 0
    isPolygon := fun g => decide (g = 200) }

/-- Wall polygon state for the C9 witness. -/
def c9st : WallsState ℕ := ⟨fun i => 100 + i, fun _ => none⟩

/-- Witness for C9: the overlapping wall 0 ends with the difference polygon
and wall 1's polygon is untouched. -/
theorem remove_overlaps_clean_difference_witness :
    polyOf (remove_overlaps c9ops c9st 0 1 true).1 0 = 200
    ∧ polyOf (remove_overlaps c9ops c9st 0 1 true).1 1 = 101 := by
  have h := remove_overlaps_clean_difference c9ops c9st 0 1 true (by decide) (by decide)
  exact ⟨h.2.1.trans (by decide), (h.2.2 1 (by decide)).trans (by decide)⟩

/-- Insertion into a Python set, modelled as a duplicate-free list: append
when the element is absent. -/
def setAdd {α : Type} [DecidableEq α] (l : List α) (x : α) : List α :=
  if x ∈ l then l else l ++ [x]

/-- Containment state of one fixture against a floor's rooms: the fixture's
room set and every room's fixture set (rooms and fixtures named by index). -/
structure ContainState where
  fixtureRooms : List ℕ
  roomFixtures : ℕ → List ℕ

/-- All containment sets empty. -/
def initContain : ContainState := ⟨[], fun _ => []⟩

/-- Fixture.add_room(room): add the room to this fixture's room set and the
fixture to the room's fixture set. -/
def add_room (st : ContainState) (f room : ℕ) : ContainState :=
  ⟨setAdd st.fixtureRooms room,
   fun r => if r = room then setAdd (st.roomFixtures r) f else st.roomFixtures r⟩

/-- The relate test of Fixture.find_rooms: first character 2, every other
character a wildcard. -/
def pat2star : Pat9 :=
  ⟨IMPat.dim IMDim.D2, IMPat.any, IMPat.any, IMPat.any, IMPat.any, IMPat.any,
   IMPat.any, IMPat.any, IMPat.any⟩

/-- Fixture.find_rooms(rooms): scan the rooms in order, and on the first
room whose relate matrix passes the test, call add_room and stop. -/
def find_rooms (ops : GeomOps G) (f : ℕ) (fixPoly : G) :
    List (ℕ × G) → ContainState → ContainState
  | [], st => st
  | (r, rPoly) :: rest, st =>
    if relateMatches (ops.relate fixPoly rPoly) pat2star then add_room st f r
    else find_rooms ops f fixPoly rest st

/-- The relation claim C5 describes: the first two DE-9IM positions
(interior/interior and interior/boundary) both indicate an intersection. -/
def claimedContainRel (m : IM9) : Prop := m.e0 ≠ IMDim.F ∧ m.e1 ≠ IMDim.F

/-- DE-9IM matrix of a fixture lying strictly inside a room, away from its
boundary: two-dimensional interior/interior intersection, empty
interior/boundary intersection. -/
def mInside : IM9 :=
  ⟨IMDim.D2, IMDim.F, IMDim.F, IMDim.D1, IMDim.F, IMDim.F, IMDim.D2, IMDim.D1, IMDim.D2⟩

/-- Concrete geometry table for the C5 counterexample: fixture polygon 9
lies strictly inside room polygon 1. -/
def c5ops : GeomOps ℕ :=
  { defaultOps ℕ 0 with
    relate := fun a b => if a = 9 ∧ b = 1 then mInside else mF }

/-- Counterexample for C5 as stated: for a fixture strictly inside a room
the interior/boundary DE-9IM entry is empty, so the relation described by
the claim does not hold for the pair — yet find_rooms assigns the room,
because the pattern the code tests (2********) constrains only the first
position. -/
theorem find_rooms_relate_counterexample :
    (find_rooms c5ops 0 9 [(0, 1)] initContain).fixtureRooms = [0]
    ∧ ¬ claimedContainRel (c5ops.relate 9 1) := by
  refine ⟨by decide, ?_⟩
  intro hcl
  exact hcl.2 (by decide)

/-- Claim C5 amended: find_rooms scans rooms in floor order and tests the
relate pattern 2********, which requires a two-dimensional
interior/interior intersection at the first DE-9IM position and constrains
none of the other eight; on the first matching room it adds that room to
the fixture's room set and the fixture to the room's fixture set and stops
scanning, and a fixture matching no room is assigned to none.  Being a pure
function of the room order and polygons, the assignment is reproduced on
repeated runs. -/
theorem find_rooms_first_match (ops : GeomOps G) (f : ℕ) (fixPoly : G)
    (rooms : List (ℕ × G)) (st : ContainState) :
    (find_rooms ops f fixPoly rooms st =
      match rooms.find? (fun rp => relateMatches (ops.relate fixPoly rp.2) pat2star) with
      | some rp => add_room st f rp.1
      | none => st)
    ∧ (∀ m : IM9, relateMatches m pat2star = true ↔ m.e0 = IMDim.D2) := by
  constructor
  · induction rooms with
    | nil => rfl
    | cons rp rest ih =>
      obtain ⟨r, rPoly⟩ := rp
      by_cases hm : relateMatches (ops.relate fixPoly rPoly) pat2star = true
      · rw [List.find?_cons_of_pos _ (by simpa using hm)]
        simp [find_rooms, hm]
      · rw [List.find?_cons_of_neg _ (by simpa using hm)]
        rw [← ih]
        simp [find_rooms, hm]
  · intro m
    simp [relateMatches, pat2star, entryMatches]

/-- A Python runtime value as touched by Divider.eligible_edges: either a
bound method object or a list.  A bound method records the list its call
would return; len() and subscripting applied to the method itself raise
TypeError. -/
inductive PyVal (G : Type) where
  | method : List G → PyVal G
  | pylist : List G → PyVal G

/-- len(v): the length for a list, TypeError for a bound method. -/
def pyLen : PyVal G → Except String ℕ
  | PyVal.pylist xs => Except.ok xs.length
  | PyVal.method _ => Except.error "TypeError: object of type method has no len()"

/-- v[i]: indexing for a list, TypeError for a bound method. -/
def pySubscript : PyVal G → ℕ → Except String G
  | PyVal.pylist xs, i =>
    match xs.get? i with
    | some x => Except.ok x
    | none => Except.error "IndexError: list index out of range"
  | PyVal.method _, _ => Except.error "TypeError: method object is not subscriptable"

/-- The attribute access self.edges inside Divider.eligible_edges:
PlanObject.edges is a plain method, not a property, so the attribute
evaluates to the bound method object; its call would return the
polygon_edges of the divider's polygon. -/
def edgesAttr (ops : GeomOps G) (poly : G) : PyVal G :=
  PyVal.method (polygon_edges ops poly)

/-- Divider.eligible_edges as written: evaluate len(self.edges) on the
bound method object and, were that to succeed, return the edges of indices
0 and 2 when the length is 4 and the empty list otherwise. -/
def eligible_edges (ops : GeomOps G) (poly : G) : Except String (List G) := do
  let n ← pyLen (edgesAttr ops poly)
  if n = 4 then
    let e0 ← pySubscript (edgesAttr ops poly) 0
    let e2 ← pySubscript (edgesAttr ops poly) 2
    pure [e0, e2]
  else
    pure []

/-- The behaviour the docstring of eligible_edges and claim C6 describe:
the edges of indices 0 and 2 for a four-edge divider, the empty list for
any other edge count. -/
def eligible_edges_intended (ops : GeomOps G) (poly : G) : List G :=
  match polygon_edges ops poly with
  | [e0, _, e2, _] => [e0, e2]
  | _ => []

/-- Claim C6 (code bug): eligible_edges as written raises TypeError on
every divider — self.edges is the bound method object, never called, and
len() of a method raises — so it never returns the edge list its own
docstring and the claim describe. -/
theorem eligible_edges_always_raises (ops : GeomOps G) (poly : G) :
    eligible_edges ops poly
      = Except.error "TypeError: object of type method has no len()"
    ∧ eligible_edges ops poly ≠ Except.ok (eligible_edges_intended ops poly) := by
  constructor
  · rfl
  · intro h
    exact Except.noConfusion
      (h.symm.trans
        (rfl :
          eligible_edges ops poly
            = Except.error "TypeError: object of type method has no len()"))

/-- Witness for C6: at the trivial geometry instance, reading
eligible_edges of a divider with polygon 3 yields the TypeError. -/
theorem eligible_edges_always_raises_witness :
    eligible_edges (defaultOps ℕ 0) 3
      = Except.error "TypeError: object of type method has no len()" :=
  (eligible_edges_always_raises (defaultOps ℕ 0) 3).1

/-- Configuration of one wall's polygon computation: the polygon that
polygon_from_points computes from the wall's shape points (the value the
cached base property produces). -/
structure WallPolyCfg (G : Type) where
  origVal : G

/-- Runtime polygon state of one wall: the functools cache of the base
cached_property, the _polygon cell, and how many times the polygon has been
computed from points. -/
structure WallPolyState (G : Type) where
  origCache : Option G
  slot : Option G
  computeCount : ℕ
deriving DecidableEq, Repr

/-- The state of a freshly constructed wall. -/
def initWallPoly : WallPolyState G := ⟨none, none, 0⟩

/-- The super().polygon read inside Wall.polygon: return the functools
cache when filled, otherwise compute the polygon (counted) and fill the
cache. -/
def superPolygonRead (cfg : WallPolyCfg G) (st : WallPolyState G) :
    G × WallPolyState G :=
  match st.origCache with
  | some v => (v, st)
  | none => (cfg.origVal, ⟨some cfg.origVal, st.slot, st.computeCount + 1⟩)

/-- The Wall.polygon property read: when the _polygon cell compares equal
to None, fill it from super().polygon; return the cell content. -/
def wallPolygonRead (cfg : WallPolyCfg G) (st : WallPolyState G) :
    G × WallPolyState G :=
  match st.slot with
  | some p => (p, st)
  | none =>
    let r := superPolygonRead cfg st
    (r.1, ⟨r.2.origCache, some r.1, r.2.computeCount⟩)

/-- An assignment to the _polygon cell, as performed by overlap resolution
(a geometry on success, None in the forced fallback). -/
def wallPolygonWrite (st : WallPolyState G) (v : Option G) : WallPolyState G :=
  ⟨st.origCache, v, st.computeCount⟩

/-- One lifetime event of a wall's polygon: a property read or an overlap
resolution write. -/
inductive WallPolyOp (G : Type) where
  | read : WallPolyOp G
  | write : Option G → WallPolyOp G

/-- Run a sequence of polygon reads and writes from a given state. -/
def runWallPoly (cfg : WallPolyCfg G) :
    List (WallPolyOp G) → WallPolyState G → WallPolyState G
  | [], st => st
  | WallPolyOp.read :: rest, st => runWallPoly cfg rest (wallPolygonRead cfg st).2
  | WallPolyOp.write v :: rest, st => runWallPoly cfg rest (wallPolygonWrite st v)

/-- Cache invariant of a wall's polygon state: either nothing has been
computed, or the original polygon has been computed exactly once and
cached. -/
def WallPolyInv (cfg : WallPolyCfg G) (st : WallPolyState G) : Prop :=
  (st.origCache = none ∧ st.computeCount = 0)
  ∨ (st.origCache = some cfg.origVal ∧ st.computeCount = 1)

lemma wallPolygonRead_inv (cfg : WallPolyCfg G) (st : WallPolyState G)
    (h : WallPolyInv cfg st) : WallPolyInv cfg (wallPolygonRead cfg st).2 := by
  cases hs : st.slot with
  | some p => simpa [wallPolygonRead, hs] using h
  | none =>
    cases hc : st.origCache with
    | some v =>
      rcases h with ⟨h1, _⟩ | ⟨h1, h2⟩
      · rw [h1] at hc; exact Option.noConfusion hc
      · right
        rw [h1] at hc
        simp [wallPolygonRead, hs, superPolygonRead, h1, h2]
    | none =>
      rcases h with ⟨h1, h2⟩ | ⟨h1, h2⟩
      · right
        simp [wallPolygonRead, hs, superPolygonRead, h1, h2]
      · rw [h1] at hc; exact Option.noConfusion hc

lemma runWallPoly_inv (cfg : WallPolyCfg G) :
    ∀ (l : List (WallPolyOp G)) (st : WallPolyState G),
      WallPolyInv cfg st → WallPolyInv cfg (runWallPoly cfg l st) := by
  intro l
  induction l with
  | nil => intro st h; exact h
  | cons op rest ih =>
    intro st h
    cases op with
    | read => exact ih _ (wallPolygonRead_inv cfg st h)
    | write v =>
      apply ih
      rcases h with ⟨h1, h2⟩ | ⟨h1, h2⟩
      · left; exact ⟨h1, h2⟩
      · right; exact ⟨h1, h2⟩

/-- The wall polygon configuration of the C7 counterexample: the wall's
points reconstruct to the polygon 7. -/
def c7cfg : WallPolyCfg ℕ := ⟨7⟩

/-- Counterexample for C7 as stated: the forced fallback of overlap
resolution replaces a wall's polygon cell with None, and the next property
read then observes the originally computed polygon again rather than the
replacement — so it is false that after every overlap-resolution
replacement all subsequent reads observe the replaced value instead of the
originally computed one. -/
theorem wall_polygon_write_not_always_observed :
    (wallPolygonRead c7cfg
        (wallPolygonWrite (runWallPoly c7cfg [WallPolyOp.read] initWallPoly) none)).1
      = c7cfg.origVal
    ∧ ¬ (∀ (st : WallPolyState ℕ) (v : Option ℕ), v ≠ some c7cfg.origVal →
          (wallPolygonRead c7cfg (wallPolygonWrite st v)).1 ≠ c7cfg.origVal) := by
  refine ⟨by decide, ?_⟩
  intro h
  exact h (runWallPoly c7cfg [WallPolyOp.read] initWallPoly) none (by decide) (by decide)

/-- Claim C7 amended: in any sequence of property reads and
overlap-resolution writes starting from a fresh wall, the polygon is
computed from points at most once; a replacement by an actual polygon is
observed by the subsequent read; a forced-fallback replacement by None is
not observed — the next read restores and returns the originally computed
polygon. -/
theorem wall_polygon_cache_discipline (cfg : WallPolyCfg G) (l : List (WallPolyOp G)) :
    (runWallPoly cfg l initWallPoly).computeCount ≤ 1
    ∧ (∀ p, (wallPolygonRead cfg
        (wallPolygonWrite (runWallPoly cfg l initWallPoly) (some p))).1 = p)
    ∧ (wallPolygonRead cfg
        (wallPolygonWrite (runWallPoly cfg l initWallPoly) none)).1 = cfg.origVal := by
  have hinv := runWallPoly_inv cfg l initWallPoly (Or.inl ⟨rfl, rfl⟩)
  refine ⟨?_, ?_, ?_⟩
  · rcases hinv with ⟨_, h2⟩ | ⟨_, h2⟩ <;> omega
  · intro p; rfl
  · rcases hinv with ⟨hc, _⟩ | ⟨hc, _⟩ <;>
      simp [wallPolygonRead, wallPolygonWrite, superPolygonRead, hc]

/-- Identity of an adjacency-pass participant on a floor: a room, wall or
railing, named by its index in its collection. -/
inductive EntId where
  | room : ℕ → EntId
  | wall : ℕ → EntId
  | railing : ℕ → EntId
deriving DecidableEq, Repr

/-- Kind of a wall opening. -/
inductive OpKind where
  | door : OpKind
  | window : OpKind
deriving DecidableEq, Repr

/-- Static data of one floor for the adjacency pass (run after overlap
resolution, so wall polygons are the resolved ones): room polygons in floor
order, walls with their polygon and their openings (kind and polygon in
construction order), railing polygons. -/
structure AdjFloor (G : Type) where
  rooms : List G
  walls : List (G × List (OpKind × G))
  railings : List G

/-- Mutable state of the adjacency pass: every entity's adjacency table
(per neighbour, the ordered fact list — an intersection geometry or the
close sentinel None), every opening's ordered room list, and every room's
door and window sets. -/
structure AdjState (G : Type) where
  adj : EntId → EntId → List (Option G)
  openingRooms : ℕ → ℕ → List ℕ
  roomDoors : ℕ → List (ℕ × ℕ)
  roomWindows : ℕ → List (ℕ × ℕ)

/-- The state before the pass: all tables and sets empty. -/
def initAdjState : AdjState G :=
  ⟨fun _ _ => [], fun _ _ => [], fun _ => [], fun _ => []⟩

/-- AdjacencyList.add on entity a's table: append the fact to the list kept
for neighbour b. -/
def adjacency_add (st : AdjState G) (a b : EntId) (info : Option G) : AdjState G :=
  { st with adj := fun x y => if x = a ∧ y = b then st.adj a b ++ [info] else st.adj x y }

/-- Door.add_adjacency / Window.add_adjacency(room): append the room to the
opening's ordered room list and add the opening to the room's door or
window set. -/
def opening_add_room (st : AdjState G) (w k : ℕ) (kd : OpKind) (r : ℕ) : AdjState G :=
  { st with
    openingRooms := fun w' k' =>
      if w' = w ∧ k' = k then st.openingRooms w k ++ [r] else st.openingRooms w' k'
    roomDoors := fun r' =>
      if kd = OpKind.door ∧ r' = r then setAdd (st.roomDoors r) (w, k) else st.roomDoors r'
    roomWindows := fun r' =>
      if kd = OpKind.window ∧ r' = r then setAdd (st.roomWindows r) (w, k)
      else st.roomWindows r' }

/-- The loop of Wall.add_adjacency over this wall's openings:
WallOpening.check_adjacencies(room) for each opening in order — when the
opening's polygon is within tolerance of the room's polygon, record the
room on the opening; k names the position of the first opening of the
list. -/
def openings_check (ops : GeomOps G) (w r : ℕ) (rPoly : G) :
    ℕ → List (OpKind × G) → AdjState G → AdjState G
  | _, [], st => st
  | k, (kd, oPoly) :: rest, st =>
    let st' := if ops.distance oPoly rPoly < CLOSE_EDGE_TOLERANCE
      then opening_add_room st w k kd r else st
    openings_check ops w r rPoly (k + 1) rest st'

/-- PlanObject._is_close(other): the polygons are within tolerance and at
least one pair of edges of the two polygons is close. -/
def is_close (ops : GeomOps G) (selfPoly otherPoly : G) : Bool :=
  if ops.distance selfPoly otherPoly ≤ CLOSE_EDGE_TOLERANCE then
    (polygon_edges ops selfPoly).any (fun se =>
      (polygon_edges ops otherPoly).any (fun oe =>
        lines_are_close ops se oe CLOSE_EDGE_TOLERANCE))
  else false

/-- Whether the loop body of PlanObject.find_adjacencies records an
adjacency for a pair: the polygon intersection is a line or multi-line, or
the pair is close. -/
def pairRecorded (ops : GeomOps G) (aPoly bPoly : G) : Bool :=
  (ops.isLineString (ops.intersection aPoly bPoly)
    || ops.isMultiLineString (ops.intersection aPoly bPoly))
  || is_close ops aPoly bPoly

/-- One iteration of Room.find_adjacencies against a wall: on a shared-edge
intersection record that geometry as the fact on both sides, else on
closeness record the None fact on both sides; recording on the wall side is
Wall.add_adjacency, which then checks every opening of the wall against the
room. -/
def room_wall_step (ops : GeomOps G) (st : AdjState G) (r : ℕ) (rPoly : G)
    (w : ℕ) (wPoly : G) (opens : List (OpKind × G)) : AdjState G :=
  let inter := ops.intersection rPoly wPoly
  if ops.isLineString inter || ops.isMultiLineString inter then
    let st1 := adjacency_add st (EntId.room r) (EntId.wall w) (some inter)
    let st2 := adjacency_add st1 (EntId.wall w) (EntId.room r) (some inter)
    openings_check ops w r rPoly 0 opens st2
  else if is_close ops rPoly wPoly then
    let st1 := adjacency_add st (EntId.room r) (EntId.wall w) none
    let st2 := adjacency_add st1 (EntId.wall w) (EntId.room r) none
    openings_check ops w r rPoly 0 opens st2
  else st

/-- One iteration of Room.find_adjacencies against a railing or a later
room: plain add_adjacency on both sides. -/
def plain_pair_step (ops : GeomOps G) (st : AdjState G) (a : EntId) (aPoly : G)
    (b : EntId) (bPoly : G) : AdjState G :=
  let inter := ops.intersection aPoly bPoly
  if ops.isLineString inter || ops.isMultiLineString inter then
    adjacency_add (adjacency_add st a b (some inter)) b a (some inter)
  else if is_close ops aPoly bPoly then
    adjacency_add (adjacency_add st a b none) b a none
  else st

/-- Room.find_adjacencies(self.walls): walk the walls in order; w names
the index of the first wall of the list. -/
def room_vs_walls (ops : GeomOps G) (r : ℕ) (rPoly : G) :
    ℕ → List (G × List (OpKind × G)) → AdjState G → AdjState G
  | _, [], st => st
  | w, wd :: rest, st =>
    room_vs_walls ops r rPoly (w + 1) rest (room_wall_step ops st r rPoly w wd.1 wd.2)

/-- Room.find_adjacencies over railings or later rooms: walk the list in
order, naming the entities mk j for ascending indices j. -/
def room_vs_list (ops : GeomOps G) (a : EntId) (aPoly : G) (mk : ℕ → EntId) :
    ℕ → List G → AdjState G → AdjState G
  | _, [], st => st
  | j, p :: rest, st =>
    room_vs_list ops a aPoly mk (j + 1) rest (plain_pair_step ops st a aPoly (mk j) p)

/-- The room loop of Floor.find_adjacencies: for each room in floor order,
find adjacencies against all walls, all railings, and the rooms after it. -/
def floor_rooms_loop (ops : GeomOps G) (fp : AdjFloor G) :
    ℕ → List G → AdjState G → AdjState G
  | _, [], st => st
  | r, rPoly :: rest, st =>
    let st1 := room_vs_walls ops r rPoly 0 fp.walls st
    let st2 := room_vs_list ops (EntId.room r) rPoly EntId.railing 0 fp.railings st1
    let st3 := room_vs_list ops (EntId.room r) rPoly EntId.room (r + 1) rest st2
    floor_rooms_loop ops fp (r + 1) rest st3

/-- The adjacency pass of Floor.find_adjacencies over one floor. -/
def floor_find_adjacencies (ops : GeomOps G) (fp : AdjFloor G) : AdjState G :=
  floor_rooms_loop ops fp 0 fp.rooms initAdjState

/-- Symmetry of the adjacency tables: every two entities hold identical
fact lists about each other. -/
def SymAdj (st : AdjState G) : Prop := ∀ a b, st.adj a b = st.adj b a

lemma double_add_adj (st : AdjState G) (a b : EntId) (info : Option G)
    (hab : a ≠ b) :
    (adjacency_add (adjacency_add st a b info) b a info).adj = fun x y =>
      if x = a ∧ y = b then st.adj a b ++ [info]
      else if x = b ∧ y = a then st.adj b a ++ [info]
      else st.adj x y := by
  funext x y
  simp only [adjacency_add]
  by_cases h1 : x = b ∧ y = a
  · obtain ⟨rfl, rfl⟩ := h1
    rw [if_pos ⟨rfl, rfl⟩]
    rw [if_neg (fun hc => hab hc.1.symm)]
    rw [if_neg (fun hc => hab hc.1.symm), if_pos ⟨rfl, rfl⟩]
  · rw [if_neg h1]
    by_cases h2 : x = a ∧ y = b
    · obtain ⟨rfl, rfl⟩ := h2
      rw [if_pos ⟨rfl, rfl⟩, if_pos ⟨rfl, rfl⟩]
    · rw [if_neg h2, if_neg h2, if_neg h1]

lemma double_add_sym (st : AdjState G) (a b : EntId) (info : Option G)
    (hab : a ≠ b) (h : SymAdj st) :
    SymAdj (adjacency_add (adjacency_add st a b info) b a info) := by
  intro x y
  simp only [double_add_adj st a b info hab]
  by_cases h1 : x = a ∧ y = b
  · rw [if_pos h1]
    rw [if_neg (fun hc => hab (h1.1.symm.trans hc.2))]
    rw [if_pos ⟨h1.2, h1.1⟩]
    rw [h a b]
  · by_cases h2 : x = b ∧ y = a
    · rw [if_neg h1, if_pos h2]
      rw [if_pos ⟨h2.2, h2.1⟩]
      rw [h a b]
    · rw [if_neg h1, if_neg h2]
      rw [if_neg (fun hc => h2 ⟨hc.2, hc.1⟩), if_neg (fun hc => h1 ⟨hc.2, hc.1⟩)]
      exact h x y

lemma opening_add_room_adj (st : AdjState G) (w k : ℕ) (kd : OpKind) (r : ℕ) :
    (opening_add_room st w k kd r).adj = st.adj := rfl

lemma openings_check_adj (ops : GeomOps G) (w r : ℕ) (rPoly : G) :
    ∀ (l : List (OpKind × G)) (k : ℕ) (st : AdjState G),
      (openings_check ops w r rPoly k l st).adj = st.adj := by
  intro l
  induction l with
  | nil => intro k st; rfl
  | cons o rest ih =>
    intro k st
    obtain ⟨kd, oPoly⟩ := o
    simp only [openings_check]
    rw [ih]
    by_cases hd : ops.distance oPoly rPoly < CLOSE_EDGE_TOLERANCE
    · rw [if_pos hd, opening_add_room_adj]
    · rw [if_neg hd]

lemma room_wall_step_sym (ops : GeomOps G) (st : AdjState G) (r : ℕ) (rPoly : G)
    (w : ℕ) (wPoly : G) (opens : List (OpKind × G)) (h : SymAdj st) :
    SymAdj (room_wall_step ops st r rPoly w wPoly opens) := by
  have hne : EntId.room r ≠ EntId.wall w := fun hc => EntId.noConfusion hc
  unfold room_wall_step
  by_cases h1 : (ops.isLineString (ops.intersection rPoly wPoly)
      || ops.isMultiLineString (ops.intersection rPoly wPoly)) = true
  · rw [if_pos h1]
    intro a b
    rw [openings_check_adj]
    exact double_add_sym st _ _ _ hne h a b
  · rw [if_neg h1]
    by_cases h2 : is_close ops rPoly wPoly = true
    · rw [if_pos h2]
      intro a b
      rw [openings_check_adj]
      exact double_add_sym st _ _ _ hne h a b
    · rw [if_neg h2]
      exact h

lemma plain_pair_step_sym (ops : GeomOps G) (st : AdjState G) (a : EntId)
    (aPoly : G) (b : EntId) (bPoly : G) (hab : a ≠ b) (h : SymAdj st) :
    SymAdj (plain_pair_step ops st a aPoly b bPoly) := by
  unfold plain_pair_step
  by_cases h1 : (ops.isLineString (ops.intersection aPoly bPoly)
      || ops.isMultiLineString (ops.intersection aPoly bPoly)) = true
  · rw [if_pos h1]
    exact double_add_sym st _ _ _ hab h
  · rw [if_neg h1]
    by_cases h2 : is_close ops aPoly bPoly = true
    · rw [if_pos h2]
      exact double_add_sym st _ _ _ hab h
    · rw [if_neg h2]
      exact h

lemma room_vs_walls_sym (ops : GeomOps G) (r : ℕ) (rPoly : G) :
    ∀ (wl : List (G × List (OpKind × G))) (w : ℕ) (st : AdjState G),
      SymAdj st → SymAdj (room_vs_walls ops r rPoly w wl st) := by
  intro wl
  induction wl with
  | nil => intro w st h; exact h
  | cons wd rest ih =>
    intro w st h
    exact ih (w + 1) _ (room_wall_step_sym ops st r rPoly w wd.1 wd.2 h)

lemma room_vs_list_sym (ops : GeomOps G) (a : EntId) (aPoly : G) (mk : ℕ → EntId) :
    ∀ (pl : List G) (j : ℕ) (st : AdjState G),
      (∀ i, j ≤ i → a ≠ mk i) → SymAdj st →
      SymAdj (room_vs_list ops a aPoly mk j pl st) := by
  intro pl
  induction pl with
  | nil => intro j st _ h; exact h
  | cons p rest ih =>
    intro j st hne h
    exact ih (j + 1) _ (fun i hi => hne i (by omega))
      (plain_pair_step_sym ops st a aPoly (mk j) p (hne j (le_refl j)) h)

lemma floor_rooms_loop_sym (ops : GeomOps G) (fp : AdjFloor G) :
    ∀ (rl : List G) (r : ℕ) (st : AdjState G),
      SymAdj st → SymAdj (floor_rooms_loop ops fp r rl st) := by
  intro rl
  induction rl with
  | nil => intro r st h; exact h
  | cons rPoly rest ih =>
    intro r st h
    apply ih (r + 1)
    apply room_vs_list_sym ops (EntId.room r) rPoly EntId.room rest (r + 1) _
      (fun i hi hc => by cases hc; omega)
    apply room_vs_list_sym ops (EntId.room r) rPoly EntId.railing fp.railings 0 _
      (fun i _ hc => EntId.noConfusion hc)
    exact room_vs_walls_sym ops r rPoly fp.walls 0 st h

/-- Claim C2: adjacency is symmetric after the adjacency pass — for every
two entities the fact lists they hold about each other are identical, so A
has a fact for B exactly when B has one for A, with the same shared-edge
geometry or close sentinel payloads in the same order. -/
theorem floor_adjacencies_symmetric (ops : GeomOps G) (fp : AdjFloor G) :
    ∀ a b, (floor_find_adjacencies ops fp).adj a b
      = (floor_find_adjacencies ops fp).adj b a :=
  floor_rooms_loop_sym ops fp fp.rooms 0 initAdjState (fun _ _ => rfl)

/-- Whether the opening at position k of an opening list starting at index
k0 is within tolerance of the room polygon. -/
def hitFrom (ops : GeomOps G) (rPoly : G) : ℕ → List (OpKind × G) → ℕ → Bool
  | _, [], _ => false
  | k0, o :: rest, k =>
    if k = k0 then decide (ops.distance o.2 rPoly < CLOSE_EDGE_TOLERANCE)
    else hitFrom ops rPoly (k0 + 1) rest k

lemma hitFrom_lt (ops : GeomOps G) (rPoly : G) :
    ∀ (l : List (OpKind × G)) (k0 k : ℕ), k < k0 → hitFrom ops rPoly k0 l k = false := by
  intro l
  induction l with
  | nil => intro k0 k _; rfl
  | cons o rest ih =>
    intro k0 k hk
    simp only [hitFrom]
    rw [if_neg (by omega)]
    exact ih (k0 + 1) k (by omega)

lemma hitFrom_get (ops : GeomOps G) (rPoly : G) :
    ∀ (l : List (OpKind × G)) (k0 k : ℕ), k0 ≤ k →
      hitFrom ops rPoly k0 l k
        = (match l.get? (k - k0) with
           | some o => decide (ops.distance o.2 rPoly < CLOSE_EDGE_TOLERANCE)
           | none => false) := by
  intro l
  induction l with
  | nil => intro k0 k _; rfl
  | cons o rest ih =>
    intro k0 k hk
    simp only [hitFrom]
    by_cases he : k = k0
    · subst he
      rw [if_pos rfl]
      simp
    · rw [if_neg he]
      rw [ih (k0 + 1) k (by omega)]
      have hsub : k - k0 = (k - (k0 + 1)) + 1 := by omega
      rw [hsub]
      simp

lemma opening_add_room_openingRooms (st : AdjState G) (w k0 : ℕ) (kd : OpKind)
    (r w' k' : ℕ) :
    (opening_add_room st w k0 kd r).openingRooms w' k'
      = st.openingRooms w' k' ++ (if w' = w ∧ k' = k0 then [r] else []) := by
  simp only [opening_add_room]
  by_cases hc : w' = w ∧ k' = k0
  · obtain ⟨rfl, rfl⟩ := hc
    rw [if_pos ⟨rfl, rfl⟩, if_pos ⟨rfl, rfl⟩]
  · rw [if_neg hc, if_neg hc, List.append_nil]

lemma openings_check_openingRooms (ops : GeomOps G) (w r : ℕ) (rPoly : G) :
    ∀ (l : List (OpKind × G)) (k0 : ℕ) (st : AdjState G) (w' k' : ℕ),
      (openings_check ops w r rPoly k0 l st).openingRooms w' k'
        = st.openingRooms w' k'
          ++ (if w' = w ∧ hitFrom ops rPoly k0 l k' = true then [r] else []) := by
  intro l
  induction l with
  | nil =>
    intro k0 st w' k'
    simp [openings_check, hitFrom]
  | cons o rest ih =>
    intro k0 st w' k'
    obtain ⟨kd, oPoly⟩ := o
    simp only [openings_check]
    rw [ih (k0 + 1)]
    by_cases he : k' = k0
    · have hb : hitFrom ops rPoly (k0 + 1) rest k' = false :=
        hitFrom_lt ops rPoly rest (k0 + 1) k' (by omega)
      rw [hb]
      simp only [hitFrom, if_pos he]
      by_cases hd : ops.distance oPoly rPoly < CLOSE_EDGE_TOLERANCE
      · rw [if_pos hd, opening_add_room_openingRooms]
        simp [he, hd]
      · rw [if_neg hd]
        simp [hd]
    · simp only [hitFrom, if_neg he]
      by_cases hd : ops.distance oPoly rPoly < CLOSE_EDGE_TOLERANCE
      · rw [if_pos hd, opening_add_room_openingRooms]
        rw [if_neg (fun hc => he hc.2)]
        rw [List.append_nil]
      · rw [if_neg hd]

lemma adjacency_add_openingRooms (st : AdjState G) (a b : EntId) (info : Option G) :
    (adjacency_add st a b info).openingRooms = st.openingRooms := rfl

lemma adjacency_add_roomDoors (st : AdjState G) (a b : EntId) (info : Option G) :
    (adjacency_add st a b info).roomDoors = st.roomDoors := rfl

lemma plain_pair_step_openingRooms (ops : GeomOps G) (st : AdjState G) (a : EntId)
    (aPoly : G) (b : EntId) (bPoly : G) :
    (plain_pair_step ops st a aPoly b bPoly).openingRooms = st.openingRooms := by
  simp only [plain_pair_step]
  split_ifs <;> rfl

lemma plain_pair_step_roomDoors (ops : GeomOps G) (st : AdjState G) (a : EntId)
    (aPoly : G) (b : EntId) (bPoly : G) :
    (plain_pair_step ops st a aPoly b bPoly).roomDoors = st.roomDoors := by
  simp only [plain_pair_step]
  split_ifs <;> rfl

lemma room_vs_list_openingRooms (ops : GeomOps G) (a : EntId) (aPoly : G)
    (mk : ℕ → EntId) :
    ∀ (pl : List G) (j : ℕ) (st : AdjState G),
      (room_vs_list ops a aPoly mk j pl st).openingRooms = st.openingRooms := by
  intro pl
  induction pl with
  | nil => intro j st; rfl
  | cons p rest ih =>
    intro j st
    simp only [room_vs_list]
    rw [ih, plain_pair_step_openingRooms]

lemma room_vs_list_roomDoors (ops : GeomOps G) (a : EntId) (aPoly : G)
    (mk : ℕ → EntId) :
    ∀ (pl : List G) (j : ℕ) (st : AdjState G),
      (room_vs_list ops a aPoly mk j pl st).roomDoors = st.roomDoors := by
  intro pl
  induction pl with
  | nil => intro j st; rfl
  | cons p rest ih =>
    intro j st
    simp only [room_vs_list]
    rw [ih, plain_pair_step_roomDoors]

lemma room_wall_step_openingRooms (ops : GeomOps G) (st : AdjState G) (r : ℕ)
    (rPoly : G) (w : ℕ) (wPoly : G) (opens : List (OpKind × G)) (w' k' : ℕ) :
    (room_wall_step ops st r rPoly w wPoly opens).openingRooms w' k'
      = st.openingRooms w' k'
        ++ (if w' = w
              ∧ (pairRecorded ops rPoly wPoly && hitFrom ops rPoly 0 opens k') = true
            then [r] else []) := by
  unfold room_wall_step pairRecorded
  by_cases h1 : (ops.isLineString (ops.intersection rPoly wPoly)
      || ops.isMultiLineString (ops.intersection rPoly wPoly)) = true
  · rw [if_pos h1]
    rw [openings_check_openingRooms]
    simp [h1, adjacency_add_openingRooms]
  · rw [if_neg h1]
    by_cases h2 : is_close ops rPoly wPoly = true
    · rw [if_pos h2]
      rw [openings_check_openingRooms]
      simp only [Bool.not_eq_true] at h1
      simp [h1, h2, adjacency_add_openingRooms]
    · rw [if_neg h2]
      simp only [Bool.not_eq_true] at h1 h2
      simp [h1, h2]

lemma room_vs_walls_openingRooms (ops : GeomOps G) (r : ℕ) (rPoly : G) (w k : ℕ) :
    ∀ (wl : List (G × List (OpKind × G))) (n : ℕ) (st : AdjState G),
      (room_vs_walls ops r rPoly n wl st).openingRooms w k
        = st.openingRooms w k
          ++ (if n ≤ w then
                match wl.get? (w - n) with
                | some wd =>
                  if (pairRecorded ops rPoly wd.1 && hitFrom ops rPoly 0 wd.2 k) = true
                  then [r] else []
                | none => []
              else []) := by
  intro wl
  induction wl with
  | nil =>
    intro n st
    simp only [room_vs_walls]
    by_cases hn : n ≤ w <;> simp [hn]
  | cons wd rest ih =>
    intro n st
    simp only [room_vs_walls]
    rw [ih (n + 1)]
    rw [room_wall_step_openingRooms]
    rw [List.append_assoc]
    congr 1
    by_cases he : w = n
    · subst he
      rw [if_neg (by omega : ¬ w + 1 ≤ w), if_pos (le_refl w)]
      simp
    · by_cases hn : n ≤ w
      · have hlt : n + 1 ≤ w := by omega
        rw [if_pos hlt, if_pos hn]
        rw [if_neg (fun hc => he hc.1)]
        have hsub : w - n = (w - (n + 1)) + 1 := by omega
        rw [hsub]
        simp
      · rw [if_neg (by omega : ¬ n + 1 ≤ w), if_neg hn]
        rw [if_neg (fun hc => he hc.1)]
        rfl

lemma floor_rooms_loop_openingRooms (ops : GeomOps G) (fp : AdjFloor G)
    (w k : ℕ) (wPoly : G) (opens : List (OpKind × G))
    (hw : fp.walls.get? w = some (wPoly, opens)) :
    ∀ (rl : List G) (r : ℕ) (st : AdjState G),
      (floor_rooms_loop ops fp r rl st).openingRooms w k
        = st.openingRooms w k
          ++ ((List.enumFrom r rl).filter (fun rp =>
                pairRecorded ops rp.2 wPoly && hitFrom ops rp.2 0 opens k)).map Prod.fst := by
  intro rl
  induction rl with
  | nil => intro r st; simp [floor_rooms_loop, List.enumFrom]
  | cons rPoly rest ih =>
    intro r st
    simp only [floor_rooms_loop]
    rw [ih (r + 1)]
    rw [room_vs_list_openingRooms, room_vs_list_openingRooms]
    rw [room_vs_walls_openingRooms]
    rw [if_pos (Nat.zero_le w)]
    rw [Nat.sub_zero, hw]
    rw [List.append_assoc]
    congr 1
    simp only [List.enumFrom, List.filter]
    by_cases hc : (pairRecorded ops rPoly wPoly && hitFrom ops rPoly 0 opens k) = true
    · simp [hc]
    · simp only [Bool.not_eq_true] at hc
      simp [hc]

/-- Whether the opening at (wall w, position k) of the floor is a door. -/
def doorAt (fp : AdjFloor G) (w k : ℕ) : Bool :=
  match fp.walls.get? w with
  | some wd =>
    match wd.2.get? k with
    | some o => decide (o.1 = OpKind.door)
    | none => false
  | none => false

/-- Reciprocal-link invariant: a room's door set holds an opening exactly
when the opening's room list holds the room and the opening is a door. -/
def RecipLinks (fp : AdjFloor G) (st : AdjState G) : Prop :=
  ∀ r w k, (w, k) ∈ st.roomDoors r ↔ (r ∈ st.openingRooms w k ∧ doorAt fp w k = true)

lemma mem_setAdd {α : Type} [DecidableEq α] (l : List α) (x y : α) :
    y ∈ setAdd l x ↔ y ∈ l ∨ y = x := by
  unfold setAdd
  by_cases hx : x ∈ l
  · rw [if_pos hx]
    constructor
    · exact Or.inl
    · rintro (hy | rfl)
      · exact hy
      · exact hx
  · rw [if_neg hx]
    simp

lemma opening_add_room_roomDoors (st : AdjState G) (w0 k0 : ℕ) (kd : OpKind)
    (r0 r : ℕ) :
    (opening_add_room st w0 k0 kd r0).roomDoors r
      = if kd = OpKind.door ∧ r = r0 then setAdd (st.roomDoors r0) (w0, k0)
        else st.roomDoors r := rfl

lemma opening_add_room_RL (fp : AdjFloor G) (st : AdjState G) (w0 k0 : ℕ)
    (kd : OpKind) (r0 : ℕ)
    (hkind : doorAt fp w0 k0 = decide (kd = OpKind.door))
    (h : RecipLinks fp st) :
    RecipLinks fp (opening_add_room st w0 k0 kd r0) := by
  intro r w k
  rw [opening_add_room_roomDoors, opening_add_room_openingRooms]
  by_cases hdr : kd = OpKind.door ∧ r = r0
  · rw [if_pos hdr]
    obtain ⟨hkd, rfl⟩ := hdr
    rw [mem_setAdd]
    by_cases hwk : w = w0 ∧ k = k0
    · obtain ⟨rfl, rfl⟩ := hwk
      rw [if_pos ⟨rfl, rfl⟩]
      constructor
      · intro _
        refine ⟨List.mem_append.mpr (Or.inr (by simp)), ?_⟩
        rw [hkind, hkd]
        simp
      · intro _
        exact Or.inr rfl
    · rw [if_neg hwk, List.append_nil]
      have hnot : ((w, k) : ℕ × ℕ) ≠ (w0, k0) := by
        intro hc
        exact hwk ⟨congrArg Prod.fst hc, congrArg Prod.snd hc⟩
      constructor
      · rintro (hmem | heq)
        · exact (h r w k).mp hmem
        · exact absurd heq hnot
      · intro hmem
        exact Or.inl ((h r w k).mpr hmem)
  · rw [if_neg hdr]
    rw [h r w k]
    by_cases hwk : w = w0 ∧ k = k0
    · obtain ⟨rfl, rfl⟩ := hwk
      rw [if_pos ⟨rfl, rfl⟩]
      by_cases hkd : kd = OpKind.door
      · have hrr : r ≠ r0 := fun hc => hdr ⟨hkd, hc⟩
        constructor
        · rintro ⟨hm, hd2⟩
          exact ⟨List.mem_append.mpr (Or.inl hm), hd2⟩
        · rintro ⟨hm, hd2⟩
          rcases List.mem_append.mp hm with hl | hr2
          · exact ⟨hl, hd2⟩
          · simp at hr2
            exact absurd hr2 hrr
      · have hda : doorAt fp w k = false := by
          rw [hkind]
          simp [hkd]
        rw [hda]
        simp
    · rw [if_neg hwk, List.append_nil]

lemma openings_check_RL (ops : GeomOps G) (fp : AdjFloor G) (w r : ℕ) (rPoly : G) :
    ∀ (l : List (OpKind × G)) (k0 : ℕ) (st : AdjState G),
      (∀ i o, l.get? i = some o → doorAt fp w (k0 + i) = decide (o.1 = OpKind.door)) →
      RecipLinks fp st →
      RecipLinks fp (openings_check ops w r rPoly k0 l st) := by
  intro l
  induction l with
  | nil => intro k0 st _ h; exact h
  | cons o rest ih =>
    intro k0 st halign h
    obtain ⟨kd, oPoly⟩ := o
    simp only [openings_check]
    apply ih (k0 + 1)
    · intro i oo hoo
      have h2 := halign (i + 1) oo (by simpa using hoo)
      rw [show k0 + 1 + i = k0 + (i + 1) from by omega]
      exact h2
    · by_cases hd : ops.distance oPoly rPoly < CLOSE_EDGE_TOLERANCE
      · rw [if_pos hd]
        exact opening_add_room_RL fp st w k0 kd r
          (by simpa using halign 0 (kd, oPoly) rfl) h
      · rw [if_neg hd]
        exact h

lemma room_wall_step_RL (ops : GeomOps G) (fp : AdjFloor G) (st : AdjState G)
    (r : ℕ) (rPoly : G) (w : ℕ) (wPoly : G) (opens : List (OpKind × G))
    (hw : fp.walls.get? w = some (wPoly, opens))
    (h : RecipLinks fp st) :
    RecipLinks fp (room_wall_step ops st r rPoly w wPoly opens) := by
  have halign : ∀ i o, opens.get? i = some o →
      doorAt fp w (0 + i) = decide (o.1 = OpKind.door) := by
    intro i o ho
    simp only [doorAt, hw]
    rw [Nat.zero_add, ho]
  simp only [room_wall_step]
  split_ifs with h1 h2
  · exact openings_check_RL ops fp w r rPoly opens 0 _ halign h
  · exact openings_check_RL ops fp w r rPoly opens 0 _ halign h
  · exact h

lemma plain_pair_step_RL (ops : GeomOps G) (fp : AdjFloor G) (st : AdjState G)
    (a : EntId) (aPoly : G) (b : EntId) (bPoly : G)
    (h : RecipLinks fp st) :
    RecipLinks fp (plain_pair_step ops st a aPoly b bPoly) := by
  simp only [plain_pair_step]
  split_ifs <;> exact h

lemma room_vs_list_RL (ops : GeomOps G) (fp : AdjFloor G) (a : EntId) (aPoly : G)
    (mk : ℕ → EntId) :
    ∀ (pl : List G) (j : ℕ) (st : AdjState G),
      RecipLinks fp st → RecipLinks fp (room_vs_list ops a aPoly mk j pl st) := by
  intro pl
  induction pl with
  | nil => intro j st h; exact h
  | cons p rest ih =>
    intro j st h
    exact ih (j + 1) _ (plain_pair_step_RL ops fp st a aPoly (mk j) p h)

lemma room_vs_walls_RL (ops : GeomOps G) (fp : AdjFloor G) (r : ℕ) (rPoly : G) :
    ∀ (wl : List (G × List (OpKind × G))) (n : ℕ) (st : AdjState G),
      wl = fp.walls.drop n → RecipLinks fp st →
      RecipLinks fp (room_vs_walls ops r rPoly n wl st) := by
  intro wl
  induction wl with
  | nil => intro n st _ h; exact h
  | cons wd rest ih =>
    intro n st hdrop h
    have hget : fp.walls.get? n = some wd := by
      have h0 : (fp.walls.drop n).get? 0 = some wd := by rw [← hdrop]; rfl
      rwa [List.get?_drop, Nat.add_zero] at h0
    have hrest : rest = fp.walls.drop (n + 1) := by
      rw [← List.drop_drop 1 n fp.walls, ← hdrop]
      rfl
    simp only [room_vs_walls]
    exact ih (n + 1) _ hrest
      (room_wall_step_RL ops fp st r rPoly n wd.1 wd.2 (by rw [hget]) h)

lemma floor_rooms_loop_RL (ops : GeomOps G) (fp : AdjFloor G) :
    ∀ (rl : List G) (r : ℕ) (st : AdjState G),
      RecipLinks fp st → RecipLinks fp (floor_rooms_loop ops fp r rl st) := by
  intro rl
  induction rl with
  | nil => intro r st h; exact h
  | cons rPoly rest ih =>
    intro r st h
    apply ih (r + 1)
    apply room_vs_list_RL
    apply room_vs_list_RL
    exact room_vs_walls_RL ops fp r rPoly fp.walls 0 st rfl h

lemma initAdjState_RL (fp : AdjFloor G) : RecipLinks fp (initAdjState : AdjState G) := by
  intro r w k
  simp [initAdjState]

/-- Claim C8 amended: for a door at position k of wall w whose polygon lies
within the closeness tolerance of exactly two room polygons, and whose wall
records an adjacency with each of those two rooms during the pass (shared
edge or closeness — the condition the code requires before a door is ever
checked against a room), the door's ordered room list afterwards is exactly
those two rooms in floor order and each of the two rooms' door sets
contains the door. -/
theorem door_two_rooms_amended (ops : GeomOps G) (fp : AdjFloor G)
    (w k : ℕ) (wPoly dPoly : G) (opens : List (OpKind × G))
    (r1 r2 : ℕ) (p1 p2 : G)
    (hw : fp.walls.get? w = some (wPoly, opens))
    (hk : opens.get? k = some (OpKind.door, dPoly))
    (hclose : (List.enumFrom 0 fp.rooms).filter
        (fun rp => decide (ops.distance dPoly rp.2 < CLOSE_EDGE_TOLERANCE))
      = [(r1, p1), (r2, p2)])
    (hadj1 : pairRecorded ops p1 wPoly = true)
    (hadj2 : pairRecorded ops p2 wPoly = true) :
    (floor_find_adjacencies ops fp).openingRooms w k = [r1, r2]
    ∧ (w, k) ∈ (floor_find_adjacencies ops fp).roomDoors r1
    ∧ (w, k) ∈ (floor_find_adjacencies ops fp).roomDoors r2 := by
  have hhit : ∀ rPoly : G, hitFrom ops rPoly 0 opens k
      = decide (ops.distance dPoly rPoly < CLOSE_EDGE_TOLERANCE) := by
    intro rPoly
    rw [hitFrom_get ops rPoly opens 0 k (Nat.zero_le k)]
    rw [Nat.sub_zero, hk]
  have hfilter : (List.enumFrom 0 fp.rooms).filter (fun rp =>
      pairRecorded ops rp.2 wPoly && hitFrom ops rp.2 0 opens k) = [(r1, p1), (r2, p2)] := by
    have hcong : (List.enumFrom 0 fp.rooms).filter (fun rp =>
        pairRecorded ops rp.2 wPoly && hitFrom ops rp.2 0 opens k)
      = (List.enumFrom 0 fp.rooms).filter (fun rp =>
        pairRecorded ops rp.2 wPoly
          && decide (ops.distance dPoly rp.2 < CLOSE_EDGE_TOLERANCE)) := by
      apply List.filter_congr
      intro rp _
      rw [hhit]
    rw [hcong, ← List.filter_filter, hclose]
    simp [hadj1, hadj2]
  have hopen : (floor_find_adjacencies ops fp).openingRooms w k = [r1, r2] := by
    show (floor_rooms_loop ops fp 0 fp.rooms initAdjState).openingRooms w k = [r1, r2]
    rw [floor_rooms_loop_openingRooms ops fp w k wPoly opens hw fp.rooms 0 initAdjState]
    rw [hfilter]
    rfl
  have hRL : RecipLinks fp (floor_find_adjacencies ops fp) :=
    floor_rooms_loop_RL ops fp fp.rooms 0 initAdjState (initAdjState_RL fp)
  have hdoor : doorAt fp w k = true := by
    unfold doorAt
    rw [hw]
    show (match opens.get? k with
          | some o => decide (o.1 = OpKind.door)
          | none => false) = true
    rw [hk]
    rfl
  refine ⟨hopen, ?_, ?_⟩
  · exact (hRL r1 w k).mpr ⟨by rw [hopen]; simp, hdoor⟩
  · exact (hRL r2 w k).mpr ⟨by rw [hopen]; simp, hdoor⟩

/-- Concrete floor for C8: rooms with polygons 1 and 2, one wall with
polygon 3 carrying one door with polygon 4, no railings. -/
def c8fp : AdjFloor ℕ := ⟨[1, 2], [(3, [(OpKind.door, 4)])], []⟩

/-- Concrete geometry for the C8 counterexample: the door (polygon 4) is
within tolerance of both room polygons, but the wall shares an edge (the
line 5) only with room 0; room 1 is far from the wall, so the wall gains no
adjacency with it and the door is never tested against it. -/
def c8ops : GeomOps ℕ :=
  { defaultOps ℕ 0 with
    intersection := fun a b => if a = 1 ∧ b = 3 then 5 else 0
    isLineString := fun g => decide (g = 5)
    distance := fun a b =>
      if a = 4 ∧ (b = 1 ∨ b = 2) then 0
      else 5 }

/-- Counterexample for C8 as stated: the door lies within tolerance of
exactly two room polygons, yet after the pass its room list holds a single
room — the one whose wall adjacency triggered the door check. -/
theorem door_two_rooms_counterexample :
    ((List.enumFrom 0 c8fp.rooms).filter (fun rp =>
        decide (c8ops.distance 4 rp.2 < CLOSE_EDGE_TOLERANCE))).length = 2
    ∧ (floor_find_adjacencies c8ops c8fp).openingRooms 0 0 = [0] := by
  exact ⟨by decide, by decide⟩

/-- Concrete geometry for the C8 witness: as in the counterexample, but the
wall shares an edge with both rooms. -/
def c8wops : GeomOps ℕ :=
  { defaultOps ℕ 0 with
    intersection := fun a b => if (a = 1 ∨ a = 2) ∧ b = 3 then 5 else 0
    isLineString := fun g => decide (g = 5)
    distance := fun a b => if a = 4 ∧ (b = 1 ∨ b = 2) then 0 else 5 }

/-- Witness for the amended C8: with the wall adjacent to both close rooms,
the door ends with both rooms, and both rooms' door sets hold the door. -/
theorem door_two_rooms_amended_witness :
    (floor_find_adjacencies c8wops c8fp).openingRooms 0 0 = [0, 1]
    ∧ (0, 0) ∈ (floor_find_adjacencies c8wops c8fp).roomDoors 0
    ∧ (0, 0) ∈ (floor_find_adjacencies c8wops c8fp).roomDoors 1 :=
  door_two_rooms_amended c8wops c8fp 0 0 3 4 [(OpKind.door, 4)] 0 1 1 2
    (by decide) (by decide) (by decide) (by decide) (by decide)

end Cubicasa
